import Mathlib

set_option maxRecDepth 40000

/- Verification of the minibadge firmware (antani_sw/src/main.rs).

   Shallow embedding conventions:
   - u8 / u16 values are modelled as naturals, kept in range by the operations;
   - f32 / f64 values are modelled as exact rationals (ℚ); the Rust float-to-u8
     `as` conversion is a saturating truncation, modelled by f32_to_u8 below;
   - the fixed-size framebuffer array is a list whose length-9 invariant is
     carried as a hypothesis;
   - the async tasks (temperature, button_driver) are embedded as pure
     functions from their sampled input (ADC reading, held duration) to the
     list / option of AppCommand events they emit in one iteration. -/

/-- Matrix width in cells (main.rs LED_MATRIX_WIDTH). -/
def LED_MATRIX_WIDTH : ℕ := 3

/-- Matrix height in cells (main.rs LED_MATRIX_HEIGHT). -/
def LED_MATRIX_HEIGHT : ℕ := 3

/-- Total cell count (main.rs LED_MATRIX_SIZE = WIDTH * HEIGHT). -/
def LED_MATRIX_SIZE : ℕ := LED_MATRIX_WIDTH * LED_MATRIX_HEIGHT

/-- Static gamma correction table, copied verbatim from main.rs GAMMA_CORRECTION. -/
def GAMMA_CORRECTION : List ℕ := [
  0, 0, 0, 0, 0, 0, 0, 0, 0, 0, 0, 0, 0, 0, 0, 0, 0, 0, 0, 0, 0, 0, 0, 0, 0, 0, 0, 0, 1, 1, 1, 1,
  1, 1, 1, 1, 1, 1, 1, 1, 1, 2, 2, 2, 2, 2, 2, 2, 2, 3, 3, 3, 3, 3, 3, 3, 4, 4, 4, 4, 4, 5, 5, 5,
  5, 6, 6, 6, 6, 7, 7, 7, 7, 8, 8, 8, 9, 9, 9, 10, 10, 10, 11, 11, 11, 12, 12, 13, 13, 13, 14,
  14, 15, 15, 16, 16, 17, 17, 18, 18, 19, 19, 20, 20, 21, 21, 22, 22, 23, 24, 24, 25, 25, 26, 27,
  27, 28, 29, 29, 30, 31, 32, 32, 33, 34, 35, 35, 36, 37, 38, 39, 39, 40, 41, 42, 43, 44, 45, 46,
  47, 48, 49, 50, 50, 51, 52, 54, 55, 56, 57, 58, 59, 60, 61, 62, 63, 64, 66, 67, 68, 69, 70, 72,
  73, 74, 75, 77, 78, 79, 81, 82, 83, 85, 86, 87, 89, 90, 92, 93, 95, 96, 98, 99, 101, 102, 104,
  105, 107, 109, 110, 112, 114, 115, 117, 119, 120, 122, 124, 126, 127, 129, 131, 133, 135, 137,
  138, 140, 142, 144, 146, 148, 150, 152, 154, 156, 158, 160, 162, 164, 167, 169, 171, 173, 175,
  177, 180, 182, 184, 186, 189, 191, 193, 196, 198, 200, 203, 205, 208, 210, 213, 215, 218, 220,
  223, 225, 228, 231, 233, 236, 239, 241, 244, 247, 249, 252, 255]

/-- One RGB pixel (smart_leds::RGB8); u8 channels as naturals kept in 0..=255. -/
structure RGB8 where
  r : ℕ
  g : ℕ
  b : ℕ
  deriving DecidableEq

/-- Modelled from the spec: rgbeffects::LedPattern (the rgbeffects module is not
among the sources); per the spec it is an N-bit mask (N = matrix cell count)
carrying one bitfield, read in main.rs as pattern.pattern. -/
structure LedPattern where
  pattern : ℕ
  deriving DecidableEq

/-- Rust saturating float-to-u8 conversion (the `as u8` cast in main.rs):
truncation toward zero, clamped into 0..=255 (negative values give 0). -/
def f32_to_u8 (q : ℚ) : ℕ := (min 255 ⌊q⌋).toNat

/-- Table lookup GAMMA_CORRECTION[i] (the index is always in bounds when it
comes from f32_to_u8; the default 0 is never reached there). -/
def gamma_lut (i : ℕ) : ℕ := GAMMA_CORRECTION.getD i 0

/-- State of struct LedMatrix: framebuffer plus the two gain scalars. -/
structure LedMatrix where
  framebuffer : List RGB8
  corrected_gain : ℚ
  raw_gain : ℚ
  deriving DecidableEq

/-- LedMatrix::new(): all-black framebuffer, corrected_gain 0.5, raw_gain 1.0. -/
def LedMatrix.new : LedMatrix :=
  ⟨List.replicate LED_MATRIX_SIZE ⟨0, 0, 0⟩, 0.5, 1.0⟩

/-- LedMatrix::set_gain. -/
def LedMatrix.set_gain (m : LedMatrix) (gain : ℚ) : LedMatrix :=
  { m with corrected_gain := gain }

/-- LedMatrix::set_raw_gain. -/
def LedMatrix.set_raw_gain (m : LedMatrix) (gain : ℚ) : LedMatrix :=
  { m with raw_gain := gain }

/-- LedMatrix::set_pixel: writes cell (x, y) only when in bounds, else no-op. -/
def LedMatrix.set_pixel (m : LedMatrix) (x y : ℕ) (rgb : RGB8) : LedMatrix :=
  if x < LED_MATRIX_WIDTH ∧ y < LED_MATRIX_HEIGHT then
    { m with framebuffer := m.framebuffer.set (y * LED_MATRIX_WIDTH + x) rgb }
  else m

/-- LedMatrix::set_all: the loop `for i in 0..LED_MATRIX_SIZE { fb[i] = rgb }`. -/
def LedMatrix.set_all (m : LedMatrix) (rgb : RGB8) : LedMatrix :=
  { m with
    framebuffer := (List.range LED_MATRIX_SIZE).foldl (fun fb i => fb.set i rgb) m.framebuffer }

/-- LedMatrix::clear: set_all black. -/
def LedMatrix.clear (m : LedMatrix) : LedMatrix := m.set_all ⟨0, 0, 0⟩

/-- Colour transformation done at the top of LedMatrix::render: multiply each
channel by corrected_gain, pass it through the gamma table, then multiply by
raw_gain (each step with the saturating u8 cast of the source). -/
def render_colour (m : LedMatrix) (colour : RGB8) : RGB8 :=
  let c1 : RGB8 := ⟨f32_to_u8 ((colour.r : ℚ) * m.corrected_gain),
                    f32_to_u8 ((colour.g : ℚ) * m.corrected_gain),
                    f32_to_u8 ((colour.b : ℚ) * m.corrected_gain)⟩
  let c2 : RGB8 := ⟨gamma_lut c1.r, gamma_lut c1.g, gamma_lut c1.b⟩
  ⟨f32_to_u8 ((c2.r : ℚ) * m.raw_gain),
   f32_to_u8 ((c2.g : ℚ) * m.raw_gain),
   f32_to_u8 ((c2.b : ℚ) * m.raw_gain)⟩

/-- Wiring table of LedMatrix::render mapping bit index to (x, y). -/
def bit_offsets : List (ℕ × ℕ) :=
  [(0, 2), (0, 1), (0, 0), (1, 2), (1, 1), (1, 0), (2, 2), (2, 1), (2, 0)]

/-- LedMatrix::render: correct the colour, then for every set bit of the
pattern write the corrected colour to the wired cell. -/
def LedMatrix.render (m : LedMatrix) (p : LedPattern) (colour : RGB8) : LedMatrix :=
  let c := render_colour m colour
  bit_offsets.enum.foldl
    (fun mm e => if p.pattern &&& (1 <<< e.1) ≠ 0 then mm.set_pixel e.2.1 e.2.2 c else mm) m

/-- Framebuffer index addressed by bit i of a pattern: with (x, y) the i-th
entry of bit_offsets, the cell written is y * WIDTH + x. -/
def permutation (i : ℕ) : ℕ :=
  (bit_offsets.getD i (0, 0)).2 * LED_MATRIX_WIDTH + (bit_offsets.getD i (0, 0)).1

/-- Condition under which the loop of LedMatrix::render writes cell c while
processing entry e = (i, x, y) of the enumerated wiring table: bit i of the
pattern bitfield pp is set, (x, y) is in bounds, and y * WIDTH + x = c. -/
abbrev write_cond (pp c : ℕ) (e : ℕ × ℕ × ℕ) : Prop :=
  pp &&& (1 <<< e.1) ≠ 0 ∧ e.2.1 < LED_MATRIX_WIDTH ∧ e.2.2 < LED_MATRIX_HEIGHT ∧
    e.2.2 * LED_MATRIX_WIDTH + e.2.1 = c

/-- Decidability of the cell-written condition, so that it can appear as an
if-condition and be evaluated on concrete inputs. -/
instance decWriteBit (pp c : ℕ) :
    Decidable (∃ i, i < 9 ∧ pp.testBit i = true ∧ permutation i = c) :=
  decidable_of_iff (∃ i ∈ Finset.range 9, pp.testBit i = true ∧ permutation i = c)
    (by
      constructor
      · rintro ⟨i, hi, h⟩
        exact ⟨i, Finset.mem_range.mp hi, h⟩
      · rintro ⟨i, hi, h⟩
        exact ⟨i, Finset.mem_range.mpr hi, h⟩)

/-- Follows the spec's words (not the source): one channel of
`correct(C, g1, g2) = gammaLUT(C * g1) * g2`, with the saturating u8 casts
applied where the u8-valued table and output force them. -/
def spec_correct_channel (c : ℕ) (g1 g2 : ℚ) : ℕ :=
  f32_to_u8 ((gamma_lut (f32_to_u8 ((c : ℚ) * g1)) : ℚ) * g2)

/-- Events of enum AppCommand. -/
inductive AppCommand where
  | ThermalThrottleMultiplier (gain : ℚ)
  | IrCommand (cmd : ℕ)
  | ShortButtonPress
  | LongButtonPress
  deriving DecidableEq

/-- Rust f64::clamp(lo, hi) on rationals. -/
def rust_clamp (x lo hi : ℚ) : ℚ := if x < lo then lo else if hi < x then hi else x

/-- Temperature conversion of the temperature task:
adc_voltage = (3.3 / 4096) * sample; degrees = 27 - (adc_voltage - 0.706) / 0.001721. -/
def temp_degrees_c (sample : ℚ) : ℚ :=
  27 - ((3.3 / 4096) * sample - 0.706) / 0.001721

/-- One iteration of the temperature task as a function of the raw ADC sample:
the event sent on the channel this tick, if any. -/
def thermal_event (sample : ℚ) : Option AppCommand :=
  if 40 < temp_degrees_c sample then
    some (AppCommand.ThermalThrottleMultiplier
      (rust_clamp (1 - (temp_degrees_c sample - 55) / 10) 0 1))
  else none

/-- Raw (rational) ADC sample whose converted temperature is exactly t degrees:
the inverse of temp_degrees_c. -/
def sample_for_temp (t : ℚ) : ℚ :=
  (0.706 + (27 - t) * 0.001721) * (4096 / 3.3)

/-- One press-release cycle of button_driver as a function of the held
duration d in milliseconds. Timing idealisation: the measured press_duration
equals the true held duration, and the 1000 ms timeout racing wait_for_high
fires exactly when the press lasts at least 1000 ms. In the timeout branch
the source sends LongButtonPress (at the 1 s mark, before waiting out the
release); in both branches it then sends ShortButtonPress exactly when the
duration lies in [50 ms, 1000 ms). -/
def button_press_events (d : ℚ) : List AppCommand :=
  (if 1000 ≤ d then [AppCommand.LongButtonPress] else []) ++
  (if 50 ≤ d ∧ d < 1000 then [AppCommand.ShortButtonPress] else [])

/-- Brightness levels of main: `let gains = [1.0, 0.7, 0.5, 0.25]`. -/
def gains : List ℚ := [1.0, 0.7, 0.5, 0.25]

/-- LongButtonPress handling in main's event match: advance gain_id
cyclically and set the matrix corrected gain to the selected level (the
one-shot indicator render and the later clear do not touch the gain). -/
def handle_long_press (m : LedMatrix) (gain_id : ℕ) : ℕ × LedMatrix :=
  let gid := (gain_id + 1) % gains.length
  (gid, m.set_gain (gains.getD gid 0))

/-- Helper: set_pixel never changes the framebuffer length. -/
theorem set_pixel_length (m : LedMatrix) (x y : ℕ) (rgb : RGB8) :
    (m.set_pixel x y rgb).framebuffer.length = m.framebuffer.length := by
  unfold LedMatrix.set_pixel
  split <;> simp

/-- Helper: the source's set-bit test agrees with Nat.testBit. -/
theorem testBit_iff_and (pp i : ℕ) : pp.testBit i = true ↔ pp &&& (1 <<< i) ≠ 0 := by
  rw [Nat.one_shiftLeft, Nat.and_two_pow]
  cases h : pp.testBit i <;> simp [h]

/-- Helper: rust_clamp x 0 1 lies in [0, 1]. -/
theorem rust_clamp_mem (x : ℚ) : 0 ≤ rust_clamp x 0 1 ∧ rust_clamp x 0 1 ≤ 1 := by
  unfold rust_clamp
  split_ifs <;> constructor <;> linarith

/-- Helper: rust_clamp x 0 1 is 0 for nonpositive x. -/
theorem rust_clamp_nonpos (x : ℚ) (hx : x ≤ 0) : rust_clamp x 0 1 = 0 := by
  unfold rust_clamp
  split_ifs <;> linarith

/-- Helper: sample_for_temp is a right inverse of temp_degrees_c. -/
theorem temp_sample_for (t : ℚ) : temp_degrees_c (sample_for_temp t) = t := by
  unfold temp_degrees_c sample_for_temp
  norm_num
  ring

/-- Helper: the set-all fold keeps the framebuffer length. -/
theorem foldl_set_length (rgb : RGB8) :
    ∀ (L : List ℕ) (fb : List RGB8),
      (L.foldl (fun l i => l.set i rgb) fb).length = fb.length := by
  intro L
  induction L with
  | nil => intro fb; rfl
  | cons i L ih => intro fb; rw [List.foldl_cons, ih]; simp

/-- Helper: cells touched by the set-all fold over List.range n. -/
theorem foldl_set_getElem (rgb : RGB8) :
    ∀ (n : ℕ) (fb : List RGB8) (c : ℕ),
      ((List.range n).foldl (fun l i => l.set i rgb) fb)[c]? =
        if c < n ∧ c < fb.length then some rgb else fb[c]? := by
  intro n
  induction n with
  | zero => intro fb c; simp
  | succ n ih =>
      intro fb c
      rw [List.range_succ, List.foldl_append, List.foldl_cons, List.foldl_nil]
      rw [List.getElem?_set]
      by_cases hc : n = c
      · subst hc
        rw [foldl_set_length]
        by_cases hlen : n < fb.length
        · simp [hlen]
        · simp [hlen, ih]
          omega
      · rw [if_neg hc, ih]
        by_cases h1 : c < n ∧ c < fb.length
        · rw [if_pos h1, if_pos ⟨by omega, h1.2⟩]
        · rw [if_neg h1, if_neg (by omega)]

/-- Claim C7: for every coordinate pair (x, y) with x >= matrix width or
y >= matrix height, and every colour, set_pixel is a silent no-op: the whole
matrix state (framebuffer and both gain scalars) is unchanged. -/
theorem c7_oob_write_noop (m : LedMatrix) (x y : ℕ) (rgb : RGB8)
    (h : LED_MATRIX_WIDTH ≤ x ∨ LED_MATRIX_HEIGHT ≤ y) :
    m.set_pixel x y rgb = m := by
  unfold LedMatrix.set_pixel
  rw [if_neg]
  rintro ⟨hx, hy⟩
  rcases h with h | h
  · exact absurd hx (Nat.not_lt.mpr h)
  · exact absurd hy (Nat.not_lt.mpr h)

/-- Witness for C7 at x = 5, y = 0. -/
theorem c7_oob_write_noop_witness :
    (LED_MATRIX_WIDTH ≤ 5 ∨ LED_MATRIX_HEIGHT ≤ 0) ∧
    LedMatrix.new.set_pixel 5 0 ⟨1, 2, 3⟩ = LedMatrix.new :=
  ⟨Or.inl (by decide), c7_oob_write_noop LedMatrix.new 5 0 ⟨1, 2, 3⟩ (Or.inl (by decide))⟩

/-- Claim C8: clear() sets every framebuffer cell to black (0, 0, 0) and
leaves both corrected_gain and raw_gain unchanged. -/
theorem c8_clear_black (m : LedMatrix) (hm : m.framebuffer.length = 9) :
    m.clear.framebuffer = List.replicate 9 ⟨0, 0, 0⟩ ∧
    m.clear.corrected_gain = m.corrected_gain ∧
    m.clear.raw_gain = m.raw_gain := by
  refine ⟨?_, rfl, rfl⟩
  have hrange : LED_MATRIX_SIZE = 9 := rfl
  apply List.ext_getElem?
  intro c
  show ((List.range LED_MATRIX_SIZE).foldl (fun fb i => fb.set i ⟨0, 0, 0⟩) m.framebuffer)[c]? = _
  rw [hrange, foldl_set_getElem, hm]
  by_cases hc : c < 9
  · rw [if_pos ⟨hc, hc⟩, List.getElem?_replicate, if_pos hc]
  · rw [if_neg (by omega)]
    rw [List.getElem?_eq_none (by omega), List.getElem?_eq_none (by simp; omega)]

/-- Witness for C8 on a matrix with nonblack cells and nondefault gains. -/
theorem c8_clear_black_witness :
    (LedMatrix.framebuffer ⟨List.replicate 9 ⟨3, 4, 5⟩, 1/4, 1/8⟩).length = 9 ∧
    ((⟨List.replicate 9 ⟨3, 4, 5⟩, 1/4, 1/8⟩ : LedMatrix).clear.framebuffer =
        List.replicate 9 ⟨0, 0, 0⟩ ∧
      (⟨List.replicate 9 ⟨3, 4, 5⟩, 1/4, 1/8⟩ : LedMatrix).clear.corrected_gain =
        (⟨List.replicate 9 ⟨3, 4, 5⟩, 1/4, 1/8⟩ : LedMatrix).corrected_gain ∧
      (⟨List.replicate 9 ⟨3, 4, 5⟩, 1/4, 1/8⟩ : LedMatrix).clear.raw_gain =
        (⟨List.replicate 9 ⟨3, 4, 5⟩, 1/4, 1/8⟩ : LedMatrix).raw_gain) :=
  ⟨by decide, c8_clear_black ⟨List.replicate 9 ⟨3, 4, 5⟩, 1/4, 1/8⟩ (by decide)⟩

/-- Claim C9: the gamma table has exactly 256 entries, is monotonically
non-decreasing between adjacent entries, and every entry lies in 0..=255. -/
theorem c9_gamma_table :
    GAMMA_CORRECTION.length = 256 ∧
    List.Chain' (· ≤ ·) GAMMA_CORRECTION ∧
    List.Forall (fun v => v ≤ 255) GAMMA_CORRECTION :=
  ⟨by decide, List.chain'_iff_pairwise.mpr (by decide), by decide⟩

/-- Claim C10: render cannot go out of bounds or overflow: every possible
gamma-table index produced by the saturating cast is below the table length,
and every channel of the colour render writes lies in 0..=255. -/
theorem c10_render_total :
    (∀ q : ℚ, f32_to_u8 q < GAMMA_CORRECTION.length) ∧
    (∀ (m : LedMatrix) (colour : RGB8),
      (render_colour m colour).r ≤ 255 ∧
      (render_colour m colour).g ≤ 255 ∧
      (render_colour m colour).b ≤ 255) := by
  have hb : ∀ q : ℚ, f32_to_u8 q ≤ 255 := fun q => Int.toNat_le.mpr (min_le_left _ _)
  constructor
  · intro q
    have h1 := hb q
    have h2 : GAMMA_CORRECTION.length = 256 := by decide
    omega
  · intro m colour
    exact ⟨hb _, hb _, hb _⟩

/-- Counterexample to claim C3: after a LongPress from the initial brightness
level, the corrected gain is 0.7, which is none of the four values
1.0, 0.75, 0.5, 0.25 the claim lists. -/
theorem c3_counterexample :
    (handle_long_press LedMatrix.new 0).2.corrected_gain = 0.7 ∧
    (handle_long_press LedMatrix.new 0).2.corrected_gain ≠ 0.75 ∧
    (handle_long_press LedMatrix.new 0).2.corrected_gain ≠ 1 ∧
    (handle_long_press LedMatrix.new 0).2.corrected_gain ≠ 0.5 ∧
    (handle_long_press LedMatrix.new 0).2.corrected_gain ≠ 0.25 := by
  refine ⟨?_, ?_, ?_, ?_, ?_⟩ <;>
    norm_num [handle_long_press, gains, LedMatrix.set_gain, LedMatrix.new]

/-- Claim C3 as amended: after a LongPress the brightness-level index advances
cyclically among exactly 4 discrete levels, whose corrected-gain values are
100%, 70%, 50% and 25% (1.0, 0.7, 0.5, 0.25); the handler touches neither the
framebuffer contents of its argument state nor the raw gain. -/
theorem c3_brightness_levels :
    gains = [1, 0.7, 0.5, 0.25] ∧ gains.length = 4 ∧
    (∀ (m : LedMatrix) (gain_id : ℕ),
      (handle_long_press m gain_id).1 = (gain_id + 1) % 4 ∧
      (handle_long_press m gain_id).2.corrected_gain = gains.getD ((gain_id + 1) % 4) 0 ∧
      (handle_long_press m gain_id).2.framebuffer = m.framebuffer ∧
      (handle_long_press m gain_id).2.raw_gain = m.raw_gain) := by
  refine ⟨by norm_num [gains], rfl, ?_⟩
  intro m gain_id
  exact ⟨rfl, rfl, rfl, rfl⟩

/-- Counterexample to claim C2: at the raw sample corresponding to exactly
50 degrees, the task does emit an event, namely ThermalThrottleMultiplier 1
(the guard is 40 < temperature, so 50 degrees is past it and the ramp value
1.5 clamps to 1). -/
theorem c2_counterexample :
    thermal_event (sample_for_temp 50) ≠ none ∧
    thermal_event (sample_for_temp 50) = some (AppCommand.ThermalThrottleMultiplier 1) := by
  have h : thermal_event (sample_for_temp 50) =
      some (AppCommand.ThermalThrottleMultiplier 1) := by
    unfold thermal_event
    rw [temp_sample_for]
    rw [if_pos (by norm_num)]
    norm_num [rust_clamp]
  exact ⟨by rw [h]; exact fun hc => Option.noConfusion hc, h⟩

/-- Claim C2 as amended: the raw sample corresponding to 50 degrees emits
ThermalThrottleMultiplier 1.0 (not no event); the one for 60 degrees emits
ThermalThrottleMultiplier 0.5; any sample corresponding to 65 degrees or more
emits ThermalThrottleMultiplier 0.0. -/
theorem c2_thermal_points (t : ℚ) :
    thermal_event (sample_for_temp 50) = some (AppCommand.ThermalThrottleMultiplier 1) ∧
    thermal_event (sample_for_temp 60) = some (AppCommand.ThermalThrottleMultiplier (1/2)) ∧
    (65 ≤ t →
      thermal_event (sample_for_temp t) = some (AppCommand.ThermalThrottleMultiplier 0)) := by
  refine ⟨?_, ?_, ?_⟩
  · unfold thermal_event
    rw [temp_sample_for, if_pos (by norm_num)]
    norm_num [rust_clamp]
  · unfold thermal_event
    rw [temp_sample_for, if_pos (by norm_num)]
    norm_num [rust_clamp]
  · intro ht
    unfold thermal_event
    rw [temp_sample_for, if_pos (by linarith)]
    rw [rust_clamp_nonpos _ (by linarith)]

/-- Witness for C2 as amended, at t = 70 degrees. -/
theorem c2_thermal_points_witness :
    (65 : ℚ) ≤ 70 ∧
    thermal_event (sample_for_temp 70) = some (AppCommand.ThermalThrottleMultiplier 0) :=
  ⟨by norm_num, (c2_thermal_points 70).2.2 (by norm_num)⟩

/-- Claim C4: the temperature task converts the raw sample with the fixed
linear calibration, emits an event exactly when the converted temperature
exceeds 40 degrees, and any emitted gain equals the clamped linear ramp and
lies in [0, 1]. -/
theorem c4_thermal_formula (s : ℚ) :
    temp_degrees_c s = 27 - (s * (3.3 / 4096) - 0.706) / 0.001721 ∧
    ((∃ e, thermal_event s = some e) ↔ 40 < temp_degrees_c s) ∧
    (∀ g, thermal_event s = some (AppCommand.ThermalThrottleMultiplier g) →
      g = rust_clamp (1 - (temp_degrees_c s - 55) / 10) 0 1 ∧ 0 ≤ g ∧ g ≤ 1) := by
  refine ⟨by unfold temp_degrees_c; ring, ?_, ?_⟩
  · unfold thermal_event
    by_cases h : 40 < temp_degrees_c s <;> simp [h]
  · intro g hg
    unfold thermal_event at hg
    by_cases h : 40 < temp_degrees_c s
    · rw [if_pos h] at hg
      have hge : g = rust_clamp (1 - (temp_degrees_c s - 55) / 10) 0 1 := by
        have := Option.some.inj hg
        exact (AppCommand.ThermalThrottleMultiplier.inj this).symm
      exact ⟨hge, hge ▸ (rust_clamp_mem _).1, hge ▸ (rust_clamp_mem _).2⟩
    · rw [if_neg h] at hg
      exact absurd hg (by simp)

/-- Witness for C4 at the sample corresponding to 60 degrees, where the task
emits gain 1/2. -/
theorem c4_thermal_formula_witness :
    thermal_event (sample_for_temp 60) = some (AppCommand.ThermalThrottleMultiplier (1/2)) ∧
    ((1 : ℚ)/2 = rust_clamp (1 - (temp_degrees_c (sample_for_temp 60) - 55) / 10) 0 1 ∧
      (0 : ℚ) ≤ 1/2 ∧ (1 : ℚ)/2 ≤ 1) := by
  have h : thermal_event (sample_for_temp 60) =
      some (AppCommand.ThermalThrottleMultiplier (1/2)) := by
    unfold thermal_event
    rw [temp_sample_for, if_pos (by norm_num)]
    norm_num [rust_clamp]
  exact ⟨h, (c4_thermal_formula (sample_for_temp 60)).2.2 (1/2) h⟩

/-- Claim C5: one button press held for d milliseconds emits no event when
d < 50, exactly one ShortButtonPress (and no LongButtonPress) when
50 <= d < 1000, and exactly one LongButtonPress (and no ShortButtonPress)
when d >= 1000. -/
theorem c5_button_debounce (d : ℚ) :
    (d < 50 → button_press_events d = []) ∧
    (50 ≤ d → d < 1000 → button_press_events d = [AppCommand.ShortButtonPress]) ∧
    (1000 ≤ d → button_press_events d = [AppCommand.LongButtonPress]) := by
  unfold button_press_events
  refine ⟨?_, ?_, ?_⟩
  · intro h
    rw [if_neg (by linarith), if_neg (fun hc => by linarith [hc.1])]
    rfl
  · intro h1 h2
    rw [if_neg (by linarith), if_pos ⟨h1, h2⟩]
    rfl
  · intro h
    rw [if_pos h, if_neg (fun hc => by linarith [hc.2])]
    rfl

/-- Witness for C5 at d = 500 ms: exactly one ShortButtonPress. -/
theorem c5_button_debounce_witness :
    (50 : ℚ) ≤ 500 ∧ (500 : ℚ) < 1000 ∧
    button_press_events 500 = [AppCommand.ShortButtonPress] :=
  ⟨by norm_num, by norm_num, (c5_button_debounce 500).2.1 (by norm_num) (by norm_num)⟩

/-- Helper: the framebuffer contents after the write loop of render, for any
prefix list of enumerated wiring entries: cell c holds the written colour
exactly when some processed entry satisfies write_cond, and is untouched
otherwise. -/
theorem foldl_setpix_get (pp : ℕ) (col : RGB8) :
    ∀ (L : List (ℕ × ℕ × ℕ)) (m : LedMatrix) (c : ℕ), m.framebuffer.length = 9 →
      ((L.foldl
          (fun mm e => if pp &&& (1 <<< e.1) ≠ 0 then mm.set_pixel e.2.1 e.2.2 col else mm)
          m).framebuffer[c]?) =
        if ∃ e ∈ L, write_cond pp c e then some col else m.framebuffer[c]? := by
  intro L
  induction L with
  | nil => intro m c _; simp
  | cons e L ih =>
      intro m c hm
      have hlen :
          (if pp &&& (1 <<< e.1) ≠ 0 then m.set_pixel e.2.1 e.2.2 col else m).framebuffer.length
            = 9 := by
        split
        · rw [set_pixel_length]; exact hm
        · exact hm
      rw [List.foldl_cons, ih _ c hlen]
      have hstep :
          (if pp &&& (1 <<< e.1) ≠ 0 then m.set_pixel e.2.1 e.2.2 col else m).framebuffer[c]? =
            if write_cond pp c e then some col else m.framebuffer[c]? := by
        by_cases hb : pp &&& (1 <<< e.1) ≠ 0
        · rw [if_pos hb]
          unfold LedMatrix.set_pixel
          by_cases hxy : e.2.1 < LED_MATRIX_WIDTH ∧ e.2.2 < LED_MATRIX_HEIGHT
          · rw [if_pos hxy]
            show (m.framebuffer.set (e.2.2 * LED_MATRIX_WIDTH + e.2.1) col)[c]? = _
            rw [List.getElem?_set]
            have hW : LED_MATRIX_WIDTH = 3 := rfl
            have hH : LED_MATRIX_HEIGHT = 3 := rfl
            have hidx : e.2.2 * LED_MATRIX_WIDTH + e.2.1 < m.framebuffer.length := by
              obtain ⟨h1, h2⟩ := hxy
              rw [hW] at h1 ⊢
              rw [hH] at h2
              rw [hm]
              omega
            by_cases hc : e.2.2 * LED_MATRIX_WIDTH + e.2.1 = c
            · rw [if_pos hc, if_pos hidx, if_pos ⟨hb, hxy.1, hxy.2, hc⟩]
            · rw [if_neg hc, if_neg (fun hfull => hc hfull.2.2.2)]
          · rw [if_neg hxy, if_neg (fun hfull => hxy ⟨hfull.2.1, hfull.2.2.1⟩)]
        · rw [if_neg hb, if_neg (fun hfull => hb hfull.1)]
      rw [hstep]
      by_cases hL : ∃ x ∈ L, write_cond pp c x
      · rw [if_pos hL]
        obtain ⟨x, hx, hp⟩ := hL
        rw [if_pos ⟨x, List.mem_cons_of_mem _ hx, hp⟩]
      · rw [if_neg hL]
        by_cases hE : write_cond pp c e
        · rw [if_pos hE, if_pos ⟨e, List.mem_cons_self _ _, hE⟩]
        · rw [if_neg hE]
          have hcons : ¬ ∃ x ∈ e :: L, write_cond pp c x := by
            rintro ⟨x, hx, hPx⟩
            rcases List.mem_cons.mp hx with rfl | hxL
            · exact hE hPx
            · exact hL ⟨x, hxL, hPx⟩
          rw [if_neg hcons]

/-- Helper: some enumerated wiring entry writes cell c under pattern pp
exactly when some set bit i below 9 has permutation i = c. -/
theorem write_cond_iff (pp c : ℕ) :
    (∃ e ∈ bit_offsets.enum, write_cond pp c e) ↔
      ∃ i, i < 9 ∧ pp.testBit i = true ∧ permutation i = c := by
  constructor
  · rintro ⟨e, he, hp⟩
    have henum : bit_offsets.enum =
        [(0, (0, 2)), (1, (0, 1)), (2, (0, 0)), (3, (1, 2)), (4, (1, 1)), (5, (1, 0)),
         (6, (2, 2)), (7, (2, 1)), (8, (2, 0))] := rfl
    rw [henum] at he
    obtain ⟨hb, hx, hy, hc⟩ := hp
    simp only [List.mem_cons, List.not_mem_nil, or_false] at he
    rcases he with rfl | rfl | rfl | rfl | rfl | rfl | rfl | rfl | rfl <;>
      exact ⟨_, by decide, (testBit_iff_and _ _).mpr hb, hc⟩
  · rintro ⟨i, hi, hb, hp⟩
    interval_cases i <;>
      first
        | exact ⟨(0, (0, 2)), by decide, (testBit_iff_and _ _).mp hb, by decide, by decide, hp⟩
        | exact ⟨(1, (0, 1)), by decide, (testBit_iff_and _ _).mp hb, by decide, by decide, hp⟩
        | exact ⟨(2, (0, 0)), by decide, (testBit_iff_and _ _).mp hb, by decide, by decide, hp⟩
        | exact ⟨(3, (1, 2)), by decide, (testBit_iff_and _ _).mp hb, by decide, by decide, hp⟩
        | exact ⟨(4, (1, 1)), by decide, (testBit_iff_and _ _).mp hb, by decide, by decide, hp⟩
        | exact ⟨(5, (1, 0)), by decide, (testBit_iff_and _ _).mp hb, by decide, by decide, hp⟩
        | exact ⟨(6, (2, 2)), by decide, (testBit_iff_and _ _).mp hb, by decide, by decide, hp⟩
        | exact ⟨(7, (2, 1)), by decide, (testBit_iff_and _ _).mp hb, by decide, by decide, hp⟩
        | exact ⟨(8, (2, 0)), by decide, (testBit_iff_and _ _).mp hb, by decide, by decide, hp⟩

/-- Helper: cell-level description of LedMatrix::render: cell c receives the
corrected colour exactly when some set bit i < 9 of the pattern has
permutation i = c, and keeps its previous value otherwise. -/
theorem render_get (m : LedMatrix) (p : LedPattern) (colour : RGB8) (c : ℕ)
    (hm : m.framebuffer.length = 9) :
    (m.render p colour).framebuffer[c]? =
      if ∃ i, i < 9 ∧ p.pattern.testBit i = true ∧ permutation i = c
      then some (render_colour m colour) else m.framebuffer[c]? := by
  have h := foldl_setpix_get p.pattern (render_colour m colour) bit_offsets.enum m c hm
  have hr : (m.render p colour).framebuffer[c]? =
      ((bit_offsets.enum.foldl
          (fun mm e =>
            if p.pattern &&& (1 <<< e.1) ≠ 0 then
              mm.set_pixel e.2.1 e.2.2 (render_colour m colour)
            else mm)
          m).framebuffer[c]?) := rfl
  exact hr.trans (h.trans (if_congr (write_cond_iff p.pattern c) rfl rfl))

/-- Claim C1: for every input colour and gain scalars g1 (corrected_gain) and
g2 (raw_gain), the correction pipeline applied by the render/write path
equals, channel-wise, first multiplying the channel by g1, then passing it
through the 256-entry gamma lookup table, then multiplying by g2: every cell
written by render holds gammaLUT(C * g1) * g2 per channel. -/
theorem c1_pipeline_order (m : LedMatrix) (p : LedPattern) (colour : RGB8) (i : ℕ)
    (hm : m.framebuffer.length = 9) (hi : i < 9) (hb : p.pattern.testBit i = true) :
    (m.render p colour).framebuffer[permutation i]? =
      some ⟨spec_correct_channel colour.r m.corrected_gain m.raw_gain,
            spec_correct_channel colour.g m.corrected_gain m.raw_gain,
            spec_correct_channel colour.b m.corrected_gain m.raw_gain⟩ := by
  rw [render_get m p colour (permutation i) hm, if_pos ⟨i, hi, hb, rfl⟩]
  rfl

/-- Witness for C1: full pattern, colour (255, 128, 7), bit 0, fresh matrix. -/
theorem c1_pipeline_order_witness :
    LedMatrix.new.framebuffer.length = 9 ∧ (0 : ℕ) < 9 ∧ Nat.testBit 511 0 = true ∧
    (LedMatrix.new.render ⟨511⟩ ⟨255, 128, 7⟩).framebuffer[permutation 0]? =
      some ⟨spec_correct_channel 255 LedMatrix.new.corrected_gain LedMatrix.new.raw_gain,
            spec_correct_channel 128 LedMatrix.new.corrected_gain LedMatrix.new.raw_gain,
            spec_correct_channel 7 LedMatrix.new.corrected_gain LedMatrix.new.raw_gain⟩ :=
  ⟨by decide, by decide, by decide,
    c1_pipeline_order LedMatrix.new ⟨511⟩ ⟨255, 128, 7⟩ 0 (by decide) (by decide) (by decide)⟩

/-- Claim C6: rendering a pattern writes exactly the grid cells addressed by
the fixed permutation table at the positions of the set bits: the table is
injective on the 9 bit positions (no aliasing), and cell c is written (with
the corrected colour) precisely when some set bit i < 9 has permutation i = c,
all other cells keeping their previous value. -/
theorem c6_permutation_no_alias :
    (∀ i < 9, ∀ j < 9, permutation i = permutation j → i = j) ∧
    (∀ (m : LedMatrix) (p : LedPattern) (colour : RGB8) (c : ℕ),
      m.framebuffer.length = 9 → c < 9 →
      (m.render p colour).framebuffer[c]? =
        if ∃ i, i < 9 ∧ p.pattern.testBit i = true ∧ permutation i = c
        then some (render_colour m colour)
        else m.framebuffer[c]?) := by
  constructor
  · decide
  · intro m p colour c hm _
    exact render_get m p colour c hm

/-- Witness for C6: injectivity applied at bits 0 and 0, and the cell
description applied to a fresh matrix, the one-bit pattern 1 and cell 6
(which the wiring maps bit 0 to). -/
theorem c6_permutation_no_alias_witness :
    ((0 : ℕ) < 9 ∧ (permutation 0 = permutation 0 → (0 : ℕ) = 0)) ∧
    (LedMatrix.new.framebuffer.length = 9 ∧ (6 : ℕ) < 9 ∧
      (LedMatrix.new.render ⟨1⟩ ⟨10, 20, 30⟩).framebuffer[6]? =
        if ∃ i, i < 9 ∧ Nat.testBit 1 i = true ∧ permutation i = 6
        then some (render_colour LedMatrix.new ⟨10, 20, 30⟩)
        else LedMatrix.new.framebuffer[6]?) :=
  ⟨⟨by decide, fun h => c6_permutation_no_alias.1 0 (by decide) 0 (by decide) h⟩,
    ⟨by decide, by decide,
      c6_permutation_no_alias.2 LedMatrix.new ⟨1⟩ ⟨10, 20, 30⟩ 6 (by decide) (by decide)⟩⟩
